import Mathlib

/-!
Verification of the UI Exploration Engine of the APKalypse repository
(`APKalypse/services/dynamic_analysis/service.py` together with the data
model in `APKalypse/models/behavior.py`, `APKalypse/models/apk.py` and the
`ServiceResult` wrapper in `core/types.py`).

The Python code is shallowly embedded: pure computations become Lean
functions, the stateful exploration loop becomes explicit state passing over
an `ExplorerState`, the nondeterministic device channel becomes a per-step
environment record describing the outcome of every channel command of that
iteration, and floats become rationals.  Python's `hash` of the sorted
`state_parts` tuple is modelled injectively: a fingerprint is represented by
the sorted list of parts itself (wrapped in `Option`, where `none` stands for
the initial value `""` that is returned when the XML document fails to
parse; a successful fingerprint is the decimal string of an integer hash and
therefore never equals `""`).
-/

namespace APKalypse

/-! ## Data model (`models/behavior.py`) -/

/-- Widget-kind classification, `UIElementType` in `models/behavior.py`.
Only the variants that the dynamic-analysis parser can produce are listed. -/
inductive UIElementType where
  | button
  | text_field
  | text_view
  | image
  | list
  | unknown
  deriving DecidableEq

/-- `UIElement` of `models/behavior.py` (fields in declaration order; the
bounds are the normalized rationals computed by the parser).  A recursive
inductive because `children` nests the type inside a list. -/
inductive UIElement where
  | mk
    (element_id : String)
    (element_type : UIElementType)
    (resource_id : Option String)
    (content_description : Option String)
    (text : Option String)
    (bounds_left bounds_top bounds_right bounds_bottom : Rat)
    (is_clickable is_focusable is_editable is_scrollable is_enabled is_visible : Bool)
    (children : List UIElement)

def UIElement.element_id : UIElement → String
  | .mk i _ _ _ _ _ _ _ _ _ _ _ _ _ _ _ => i

def UIElement.resource_id : UIElement → Option String
  | .mk _ _ r _ _ _ _ _ _ _ _ _ _ _ _ _ => r

def UIElement.text : UIElement → Option String
  | .mk _ _ _ _ t _ _ _ _ _ _ _ _ _ _ _ => t

def UIElement.bounds_left : UIElement → Rat
  | .mk _ _ _ _ _ bl _ _ _ _ _ _ _ _ _ _ => bl

def UIElement.bounds_top : UIElement → Rat
  | .mk _ _ _ _ _ _ bt _ _ _ _ _ _ _ _ _ => bt

def UIElement.bounds_right : UIElement → Rat
  | .mk _ _ _ _ _ _ _ br _ _ _ _ _ _ _ _ => br

def UIElement.bounds_bottom : UIElement → Rat
  | .mk _ _ _ _ _ _ _ _ bb _ _ _ _ _ _ _ => bb

def UIElement.is_clickable : UIElement → Bool
  | .mk _ _ _ _ _ _ _ _ _ ck _ _ _ _ _ _ => ck

def UIElement.is_enabled : UIElement → Bool
  | .mk _ _ _ _ _ _ _ _ _ _ _ _ _ en _ _ => en

def UIElement.is_visible : UIElement → Bool
  | .mk _ _ _ _ _ _ _ _ _ _ _ _ _ _ vis _ => vis

def UIElement.children : UIElement → List UIElement
  | .mk _ _ _ _ _ _ _ _ _ _ _ _ _ _ _ ch => ch

/-- `ScreenModel` of `models/behavior.py`, restricted to the fields the
dynamic-analysis service sets (the remaining fields keep their defaults in
every construction performed by the service and never influence the claims). -/
structure ScreenModel where
  screen_id : String
  screen_name : String
  activity_name : Option String := none
  description : String := ""
  root_elements : List UIElement := []
  interactive_elements : List String := []
  has_navigation : Bool := false

instance : Inhabited ScreenModel := ⟨{ screen_id := "", screen_name := "" }⟩

/-- `ActionType` of `models/behavior.py` (variants used by the service). -/
inductive ActionType where
  | tap
  | swipe
  | back
  deriving DecidableEq

/-- `UserAction` of `models/behavior.py`, restricted to the fields the
service sets.  `coordinates` is the pair of rationals recorded by the
exploration loop. -/
structure UserAction where
  action_id : String
  action_type : ActionType
  target_element_id : Option String := none
  coordinates : Option (Rat × Rat) := none
  source_screen_id : String
  description : String := ""
  deriving DecidableEq

/-- `StateTransition` of `models/behavior.py` (fields set by the service);
the triggering action is owned by value. -/
structure StateTransition where
  transition_id : String
  from_screen_id : String
  to_screen_id : String
  triggered_by_action : UserAction
  deriving DecidableEq

/-! ## UI-tree documents and `UIExplorer._parse_ui_hierarchy` -/

/-- Python's truthiness-based `a or b` for an optional string (an absent or
empty string falls through to the alternative). -/
def pyOrStr (a : Option String) (b : String) : String :=
  match a with
  | some s => if s = "" then b else s
  | none => b

/-- Python's `pat in s` substring test. -/
def strContains (s pat : String) : Bool :=
  decide (pat.data <:+: s.data)

/-- A node of the uiautomator XML dump.  Attributes are `Option String` as
returned by `ElementTree` `node.get`.  The `bounds` attribute is modelled as
the result of `re.match` of `[(x1,y1)][(x2,y2)]` digit groups on the bounds
string: `some (x1, y1, x2, y2)` when the regex matches (the default
attribute value `[0,0][0,0]` gives `some (0, 0, 0, 0)`), `none` when it does
not, in which case `parse_node` drops the node and its entire subtree. -/
inductive XMLNode where
  | mk
    (bounds : Option (Nat × Nat × Nat × Nat))
    (resource_id : Option String)
    (text : Option String)
    (content_desc : Option String)
    (class_name : Option String)
    (clickable focusable scrollable enabled : Option String)
    (children : List XMLNode)

/-- A UI-tree snapshot as returned by the device: either a document that
fails XML parsing (`ET.ParseError`) or the child nodes of the
`<hierarchy>` root element. -/
inductive UIDump where
  | malformed
  | ok (roots : List XMLNode)

/-- Element-kind classification from the lowercased class attribute
(service.py lines 309-321). -/
def elementTypeOf (class_lower : String) : UIElementType :=
  if strContains class_lower "button" then .button
  else if strContains class_lower "edittext" then .text_field
  else if strContains class_lower "textview" then .text_view
  else if strContains class_lower "imageview" then .image
  else if strContains class_lower "recyclerview" || strContains class_lower "listview" then .list
  else .unknown

mutual
/-- `parse_node` (service.py lines 293-349).  `k` is `len(elements)`, the
number of completed top-level elements, which is constant throughout one
top-level subtree because the outer `elements` list is only appended to
after `parse_node` returns.  Returns the parsed element (`none` when the
bounds regex does not match, which skips the whole subtree) together with
the (element id, text[:20]) pairs this subtree appends to `state_parts`, in
traversal order (the node itself before its children); the source encodes
each pair as the string `element_id ++ ":" ++ text[:20]` (see
`encodePair`). -/
def parseNode (k : Nat) : XMLNode → Option UIElement × List (String × String)
  | .mk bounds rid txt cd cls ck fc sc en ch =>
    match bounds with
    | none => (none, [])
    | some (x1, y1, x2, y2) =>
      let resource_id := rid.getD ""
      let text := txt.getD ""
      let content_desc := cd.getD ""
      let class_name := cls.getD ""
      let class_lower := class_name.toLower
      let element_id := if resource_id ≠ "" then resource_id else "elem_" ++ toString k
      let (children, childPairs) := parseNodeList k ch
      (some (UIElement.mk element_id (elementTypeOf class_lower)
          (if resource_id ≠ "" then some resource_id else none)
          (if content_desc ≠ "" then some content_desc else none)
          (if text ≠ "" then some text else none)
          ((x1 : Rat) / 1080) ((y1 : Rat) / 1920) ((x2 : Rat) / 1080) ((y2 : Rat) / 1920)
          (ck == some "true") (fc == some "true") (strContains class_lower "edittext")
          (sc == some "true") (en == some "true") true
          children),
        (element_id, text.take 20) :: childPairs)

/-- The `for child in node` recursion of `parse_node`: children that parse
to `None` are dropped, their `state_parts` contributions concatenate in
order. -/
def parseNodeList (k : Nat) : List XMLNode → List UIElement × List (String × String)
  | [] => ([], [])
  | n :: ns =>
    let (e, ps) := parseNode k n
    let (es, ps2) := parseNodeList k ns
    ((match e with | some el => el :: es | none => es), ps ++ ps2)
end

/-- The `for child in root` loop of `_parse_ui_hierarchy` (lines 351-354):
`k` (the length of `elements`) increments exactly when a top-level element
is appended. -/
def parseRoots (k : Nat) : List XMLNode → List UIElement × List (String × String)
  | [] => ([], [])
  | n :: ns =>
    match parseNode k n with
    | (some e, ps) =>
      let (es, ps2) := parseRoots (k + 1) ns
      (e :: es, ps ++ ps2)
    | (none, ps) =>
      let (es, ps2) := parseRoots k ns
      (es, ps ++ ps2)

/-- The f-string `element_id:text[:20]` appended to `state_parts`. -/
def encodePair (p : String × String) : String := p.1 ++ ":" ++ p.2

/-- Python's `sorted` on a list of strings (lexicographic order; modelled
by insertion sort, which produces the same sorted permutation as any
correct sort). -/
def pySort (l : List String) : List String := List.insertionSort (· ≤ ·) l

/-- A state fingerprint.  The source computes
`str(hash(tuple(sorted(state_parts))))`, with `state_hash` initialized to
`""` and left unchanged when the document is malformed.  `none` models the
malformed-document value `""`; `some l` models the decimal hash string of
the sorted parts list `l` (never equal to `""`), with `hash` taken as
injective. -/
abbrev Fingerprint := Option (List String)

/-- `UIExplorer._parse_ui_hierarchy` (lines 282-361): the element forest and
the state fingerprint. -/
def parseUIHierarchy : UIDump → List UIElement × Fingerprint
  | .malformed => ([], none)
  | .ok roots =>
    let (es, pairs) := parseRoots 0 roots
    (es, some (pySort (pairs.map encodePair)))

mutual
/-- Pydantic validation of the `UIElement` constructed for a node: the four
normalized bounds carry `ge=0, le=1` constraints, so construction raises
`ValidationError` — which `_parse_ui_hierarchy` does **not** catch (it only
catches `ET.ParseError`) — exactly when a matched pixel coordinate exceeds
the assumed 1080x1920 reference resolution somewhere in the constructed
subtree. -/
def nodeInvalid : XMLNode → Bool
  | .mk bounds _ _ _ _ _ _ _ _ ch =>
    match bounds with
    | none => false
    | some (x1, y1, x2, y2) =>
      (1080 < x1 || 1920 < y1 || 1080 < x2 || 1920 < y2) || nodeListInvalid ch

/-- `nodeInvalid` over a list of sibling nodes. -/
def nodeListInvalid : List XMLNode → Bool
  | [] => false
  | n :: ns => nodeInvalid n || nodeListInvalid ns
end

/-- Whether parsing the dump raises a pydantic `ValidationError` (escaping
`_parse_ui_hierarchy` into the step loop's generic handler). -/
def dumpInvalid : UIDump → Bool
  | .malformed => false
  | .ok roots => nodeListInvalid roots

mutual
/-- The `collect` closure of `UIExplorer._get_clickable_elements`
(lines 363-376): clickable ∧ visible ∧ enabled elements, parent before
children, order preserving. -/
def collectClickable : UIElement → List UIElement
  | .mk i t r c tx bl bt br bb ck fc ed sc en vis ch =>
    (if ck && vis && en then [UIElement.mk i t r c tx bl bt br bb ck fc ed sc en vis ch] else [])
      ++ collectClickableList ch

/-- `collectClickable` over sibling elements. -/
def collectClickableList : List UIElement → List UIElement
  | [] => []
  | e :: es => collectClickable e ++ collectClickableList es
end

/-- `UIExplorer._get_clickable_elements` on the root forest. -/
def getClickableElements (elements : List UIElement) : List UIElement :=
  collectClickableList elements

/-! ## `UIExplorer.explore` as a state machine -/

/-- The mutable state of one `UIExplorer` instance together with the local
`current_screen_id` variable of `explore` (lines 276-280 and 382).  The
Python `visited_states` set is modelled as the list of fingerprints in
first-sight order (elements are only added after a negative membership
test, so the list is duplicate-free and has exactly the set's members). -/
structure ExplorerState where
  visited_states : List Fingerprint := []
  screens : List ScreenModel := []
  transitions : List StateTransition := []
  actions : List UserAction := []
  action_count : Nat := 0
  current_screen_id : Option String := none

/-- The device channel's behaviour during one iteration of the exploration
loop: the outcome of each command the step may issue.  `none` for
`hierarchy`/`activity` means the adb command raised `EmulatorError`;
`choose` resolves `random.choice` (index modulo the candidate count);
`tapOk`/`swipeOk` tell whether the input command succeeds; `backOk` tells
whether the recovery `press_back` issued by the `except` handler succeeds. -/
structure StepEnv where
  hierarchy : Option UIDump := none
  activity : Option String := none
  choose : Nat := 0
  tapOk : Bool := true
  swipeOk : Bool := true
  backOk : Bool := true

/-- The `ScreenModel` constructed at first sight of a fingerprint
(lines 396-402): a fresh id from the current screen count, the name from
the foreground activity when truthy, the parsed forest as roots, and the
clickable elements' ids as the interactive subset. -/
def newScreen (st : ExplorerState) (activity : String) (elements : List UIElement) : ScreenModel :=
  { screen_id := "screen_" ++ toString st.screens.length
    screen_name :=
      if activity ≠ "" then (activity.splitOn "/").getLastD ""
      else "Screen " ++ toString st.screens.length
    activity_name := some activity
    root_elements := elements
    interactive_elements := (getClickableElements elements).map UIElement.element_id }

/-- The transition recording of lines 405-414: appended only when
`current_screen_id` is truthy (set and non-empty) and at least one action
has been performed, attributing the edge to the last recorded action. -/
def newTransitions (st : ExplorerState) (toId : String) : List StateTransition :=
  match st.current_screen_id, st.actions.getLast? with
  | some cur, some la =>
    if cur = "" then st.transitions
    else
      st.transitions ++
        [{ transition_id := "trans_" ++ toString st.transitions.length
           from_screen_id := cur
           to_screen_id := toId
           triggered_by_action := la }]
  | _, _ => st.transitions

/-- Screen registration (lines 391-416): executed only when the fingerprint
is new; creates the screen, records a transition when applicable, and moves
`current_screen_id` to the new screen.  On a revisit the state — including
`current_screen_id` — is left untouched. -/
def registerScreen (st : ExplorerState) (activity : String)
    (elements : List UIElement) (state_hash : Fingerprint) : ExplorerState :=
  if state_hash ∈ st.visited_states then st
  else
    { visited_states := st.visited_states ++ [state_hash]
      screens := st.screens ++ [newScreen st activity elements]
      transitions := newTransitions st (newScreen st activity elements).screen_id
      actions := st.actions
      action_count := st.action_count
      current_screen_id := some (newScreen st activity elements).screen_id }

/-- Pixel x coordinate of the tap (line 433), truncating like Python `int`
on the non-negative midpoint. -/
def tapX (target : UIElement) : Int :=
  ⌊(target.bounds_left + target.bounds_right) / 2 * 1080⌋

/-- Pixel y coordinate of the tap (line 434). -/
def tapY (target : UIElement) : Int :=
  ⌊(target.bounds_top + target.bounds_bottom) / 2 * 1920⌋

/-- Action recording (lines 437-446): the `UserAction` is appended before
the tap is performed; note that the recorded `coordinates` are the *sums*
of the normalized bounds, not their midpoints. -/
def recordAction (st : ExplorerState) (target : UIElement) : ExplorerState :=
  let action : UserAction :=
    { action_id := "action_" ++ toString st.action_count
      action_type := ActionType.tap
      target_element_id := some target.element_id
      coordinates := some (target.bounds_left + target.bounds_right,
                           target.bounds_top + target.bounds_bottom)
      source_screen_id := st.current_screen_id.getD ""
      description := "Tap on " ++ pyOrStr target.text (pyOrStr target.resource_id "element") }
  { st with actions := st.actions ++ [action], action_count := st.action_count + 1 }

/-- One iteration of the `for _ in range(max_actions)` loop of
`UIExplorer.explore` (lines 384-456).  Returns the state after the
iteration and `false` exactly when an exception escaped the iteration:
every command failure (and a pydantic validation failure during parsing) is
caught by the `except` handler, which issues `press_back` — if that
recovery command itself raises, the error propagates out of `explore`. -/
def exploreStep (st : ExplorerState) (env : StepEnv) : ExplorerState × Bool :=
  match env.hierarchy with
  | none => (st, env.backOk)
  | some dump =>
    match env.activity with
    | none => (st, env.backOk)
    | some activity =>
      if dumpInvalid dump then (st, env.backOk)
      else
        let parsed := parseUIHierarchy dump
        let st1 := registerScreen st activity parsed.1 parsed.2
        match getClickableElements parsed.1 with
        | [] => (st1, env.swipeOk || env.backOk)
        | c :: cs =>
          let target := (c :: cs).getD (env.choose % (c :: cs).length) c
          let st2 := recordAction st1 target
          (st2, env.tapOk || env.backOk)

/-- The exploration loop over a list of per-iteration channel behaviours.
The `Bool` is `true` when the loop ran to completion and `false` when an
iteration's recovery `press_back` raised, aborting `explore` with the
partial state built so far. -/
def exploreRun : ExplorerState → List StepEnv → ExplorerState × Bool
  | st, [] => (st, true)
  | st, env :: rest =>
    match exploreStep st env with
    | (st2, true) => exploreRun st2 rest
    | (st2, false) => (st2, false)

/-- `UIExplorer.explore` from a fresh explorer: `max_actions` iterations
against the channel behaviour stream `envs`. -/
def explore (envs : Nat → StepEnv) (max_actions : Nat) : ExplorerState × Bool :=
  exploreRun {} ((List.range max_actions).map envs)

/-! ## `DynamicAnalysisService` (`analyze` and `_mock_analysis`) -/

/-- `ActivityInfo` of `models/apk.py` (fields used by the service). -/
structure ActivityInfo where
  name : String
  is_launcher : Bool := false

/-- `ActivityInfo.simple_name`: the class name after the last dot. -/
def ActivityInfo.simple_name (a : ActivityInfo) : String :=
  (a.name.splitOn ".").getLastD ""

/-- `DynamicAnalysisInput`, restricted to the fields `analyze` and
`_mock_analysis` read: the manifest's activity list and the exploration
time budget. -/
structure DynamicAnalysisInput where
  activities : List ActivityInfo := []
  exploration_time_seconds : Nat := 300

/-- `DynamicAnalysisOutput` (network calls omitted: always empty). -/
structure DynamicAnalysisOutput where
  screens : List ScreenModel := []
  transitions : List StateTransition := []
  exploration_coverage : Rat := 0
  total_actions : Nat := 0

/-- `ServiceResult` of `core/types.py` (fields used here). -/
structure ServiceRes (T : Type) where
  success : Bool
  data : Option T := none
  error : Option String := none
  warnings : List String := []

/-- `ServiceResult.ok`. -/
def ServiceRes.ok {T : Type} (data : T) : ServiceRes T :=
  { success := true, data := some data }

/-- `ServiceResult.with_warnings`. -/
def ServiceRes.with_warnings {T : Type} (data : T) (warnings : List String) : ServiceRes T :=
  { success := true, data := some data, warnings := warnings }

/-- The screens synthesized by `_mock_analysis` (lines 566-575): one per
statically declared activity. -/
def mockScreens (acts : List ActivityInfo) : List ScreenModel :=
  acts.enum.map fun p =>
    { screen_id := "screen_" ++ toString p.1
      screen_name := p.2.simple_name
      activity_name := some p.2.name
      description := "Screen for " ++ p.2.simple_name
      has_navigation := p.2.is_launcher }

/-- The linear transitions synthesized by `_mock_analysis` (lines 577-592):
one edge between each pair of consecutive synthesized screens. -/
def mockTransitions (screens : List ScreenModel) : List StateTransition :=
  (List.range (screens.length - 1)).map fun i =>
    let action : UserAction :=
      { action_id := "action_" ++ toString i
        action_type := ActionType.tap
        source_screen_id := (screens.getD i default).screen_id
        description := "Navigate from " ++ (screens.getD i default).screen_name }
    { transition_id := "trans_" ++ toString i
      from_screen_id := (screens.getD i default).screen_id
      to_screen_id := (screens.getD (i + 1) default).screen_id
      triggered_by_action := action }

/-- The `DynamicAnalysisOutput` built by `_mock_analysis` (lines 594-600):
note the hard-coded coverage constant `0.3`. -/
def mockOutput (input : DynamicAnalysisInput) : DynamicAnalysisOutput :=
  let screens := mockScreens input.activities
  let transitions := mockTransitions screens
  { screens := screens
    transitions := transitions
    exploration_coverage := 3 / 10
    total_actions := transitions.length }

/-- `DynamicAnalysisService._mock_analysis` (lines 561-605). -/
def mockAnalysis (input : DynamicAnalysisInput) : ServiceRes DynamicAnalysisOutput :=
  ServiceRes.with_warnings (mockOutput input)
    ["Emulator not available - using mock analysis based on static data"]

/-- `max_actions = input_data.exploration_time_seconds // 5` (line 528). -/
def maxActionsFor (exploration_time_seconds : Nat) : Nat :=
  exploration_time_seconds / 5

/-- `DynamicAnalysisService.analyze` (lines 479-559), modelled on its two
decision points: `startOk` says whether `EmulatorSession.start` reached
Ready (its failure is caught and routed to `_mock_analysis`), and an
exception escaping the exploration loop is caught by the outer handler,
which also returns `_mock_analysis`.  The function is total: no path
re-raises to the caller. -/
def analyze (input : DynamicAnalysisInput) (startOk : Bool) (envs : Nat → StepEnv) :
    ServiceRes DynamicAnalysisOutput :=
  if !startOk then mockAnalysis input
  else
    let (st, completed) := explore envs (maxActionsFor input.exploration_time_seconds)
    if !completed then mockAnalysis input
    else
      let coverage : Rat := st.screens.length / (max input.activities.length 1 : Nat)
      ServiceRes.ok
        { screens := st.screens
          transitions := st.transitions
          exploration_coverage := min coverage 1
          total_actions := st.action_count }

/-! ## Helper lemmas: decimal string ids, sorting, string cancellation -/

/-- Decimal digit characters of a natural number, most significant first
(the fuel-free counterpart of `Nat.toDigitsCore` at base 10). -/
def reprAux (n : Nat) : List Char :=
  if _h : n < 10 then [Nat.digitChar n]
  else reprAux (n / 10) ++ [Nat.digitChar (n % 10)]
termination_by n
decreasing_by exact Nat.div_lt_self (by omega) (by omega)

theorem reprAux_lt {n : Nat} (h : n < 10) : reprAux n = [Nat.digitChar n] := by
  rw [reprAux]
  simp [h]

theorem reprAux_ge {n : Nat} (h : ¬ n < 10) :
    reprAux n = reprAux (n / 10) ++ [Nat.digitChar (n % 10)] := by
  conv_lhs => rw [reprAux]
  simp [h]

theorem reprAux_ne_nil (n : Nat) : reprAux n ≠ [] := by
  by_cases h : n < 10
  · simp [reprAux_lt h]
  · simp [reprAux_ge h]

theorem toDigitsCore_eq_reprAux (f : Nat) :
    ∀ (n : Nat) (acc : List Char), n < f →
      Nat.toDigitsCore 10 f n acc = reprAux n ++ acc := by
  induction f with
  | zero => intro n acc h; omega
  | succ f ih =>
    intro n acc h
    rw [Nat.toDigitsCore]
    by_cases h10 : n / 10 = 0
    · have hn : n < 10 := by omega
      simp only [h10, if_pos]
      simp [reprAux_lt hn, Nat.mod_eq_of_lt hn]
    · have hdivlt : n / 10 < n := Nat.div_lt_self (by omega) (by omega)
      simp only [h10, if_neg, if_false]
      rw [ih (n / 10) _ (by omega)]
      have hn : ¬ n < 10 := by
        intro hc
        exact h10 (Nat.div_eq_of_lt hc)
      simp [reprAux_ge hn]

theorem digitChar_inj_lt :
    ∀ m < 10, ∀ n < 10, Nat.digitChar m = Nat.digitChar n → m = n := by decide

theorem reprAux_inj : ∀ m n : Nat, reprAux m = reprAux n → m = n := by
  intro m
  induction m using Nat.strong_induction_on with
  | _ m ih =>
    intro n h
    by_cases hm : m < 10 <;> by_cases hn : n < 10
    · rw [reprAux_lt hm, reprAux_lt hn] at h
      simp only [List.cons.injEq, and_true] at h
      exact digitChar_inj_lt m hm n hn h
    · exfalso
      rw [reprAux_lt hm, reprAux_ge hn] at h
      have hlen := congrArg List.length h
      simp only [List.length_append, List.length_cons, List.length_nil] at hlen
      have h0 : (reprAux (n / 10)).length = 0 := by omega
      exact reprAux_ne_nil _ (List.length_eq_zero.mp h0)
    · exfalso
      rw [reprAux_ge hm, reprAux_lt hn] at h
      have hlen := congrArg List.length h
      simp only [List.length_append, List.length_cons, List.length_nil] at hlen
      have h0 : (reprAux (m / 10)).length = 0 := by omega
      exact reprAux_ne_nil _ (List.length_eq_zero.mp h0)
    · rw [reprAux_ge hm, reprAux_ge hn] at h
      have hsplit := List.append_inj' h (by simp)
      have hdiv : m / 10 = n / 10 :=
        ih (m / 10) (Nat.div_lt_self (by omega) (by omega)) (n / 10) hsplit.1
      have hmod : m % 10 = n % 10 := by
        have hchar : Nat.digitChar (m % 10) = Nat.digitChar (n % 10) := by
          have := hsplit.2
          simp only [List.cons.injEq, and_true] at this
          exact this
        exact digitChar_inj_lt (m % 10) (Nat.mod_lt _ (by omega)) (n % 10)
          (Nat.mod_lt _ (by omega)) hchar
      have h1 := Nat.div_add_mod m 10
      have h2 := Nat.div_add_mod n 10
      omega

theorem nat_repr_inj : Function.Injective Nat.repr := by
  intro m n h
  apply reprAux_inj
  have hdata := congrArg String.data h
  simp only [Nat.repr, Nat.toDigits, List.asString] at hdata
  have hm := toDigitsCore_eq_reprAux (m + 1) m [] (by omega)
  have hn := toDigitsCore_eq_reprAux (n + 1) n [] (by omega)
  simpa [hm, hn] using hdata

theorem string_append_left_cancel {a b c : String} (h : a ++ b = a ++ c) : b = c := by
  apply String.ext
  have := congrArg String.data h
  simp only [String.data_append] at this
  exact List.append_cancel_left this

theorem toString_nat_eq_repr (n : Nat) : toString n = Nat.repr n := rfl

theorem screen_id_of_index_inj :
    Function.Injective (fun i : Nat => "screen_" ++ toString i) := by
  intro a b h
  apply nat_repr_inj
  rw [← toString_nat_eq_repr, ← toString_nat_eq_repr]
  exact string_append_left_cancel h

theorem pySort_perm (l : List String) : (pySort l).Perm l :=
  List.perm_insertionSort _ l

theorem pySort_sorted (l : List String) : List.Sorted (· ≤ ·) (pySort l) :=
  List.sorted_insertionSort _ l

theorem pySort_eq_of_perm {l1 l2 : List String} (h : l1.Perm l2) : pySort l1 = pySort l2 :=
  List.eq_of_perm_of_sorted ((pySort_perm l1).trans (h.trans (pySort_perm l2).symm))
    (pySort_sorted l1) (pySort_sorted l2)

theorem encodePair_inj_right {i t t' : String}
    (h : encodePair (i, t) = encodePair (i, t')) : t = t' := by
  unfold encodePair at h
  exact string_append_left_cancel h

/-! ## Structural lemmas about one exploration step -/

theorem registerScreen_mem {st : ExplorerState} {a : String} {es : List UIElement}
    {fp : Fingerprint} (h : fp ∈ st.visited_states) :
    registerScreen st a es fp = st := by
  simp [registerScreen, h]

theorem registerScreen_new {st : ExplorerState} {a : String} {es : List UIElement}
    {fp : Fingerprint} (h : fp ∉ st.visited_states) :
    registerScreen st a es fp =
      { visited_states := st.visited_states ++ [fp]
        screens := st.screens ++ [newScreen st a es]
        transitions := newTransitions st (newScreen st a es).screen_id
        actions := st.actions
        action_count := st.action_count
        current_screen_id := some (newScreen st a es).screen_id } := by
  simp [registerScreen, h]

/-- Every step either leaves the state unchanged (a command failed before
any mutation), or performs the screen registration, optionally followed by
the recording of one tap action. -/
theorem exploreStep_shape (st : ExplorerState) (env : StepEnv) :
    (exploreStep st env).1 = st ∨
    ∃ dump a, env.hierarchy = some dump ∧ env.activity = some a ∧
      dumpInvalid dump = false ∧
      ((exploreStep st env).1 =
          registerScreen st a (parseUIHierarchy dump).1 (parseUIHierarchy dump).2 ∨
        ∃ tgt, (exploreStep st env).1 =
          recordAction (registerScreen st a (parseUIHierarchy dump).1 (parseUIHierarchy dump).2) tgt) := by
  cases hh : env.hierarchy with
  | none => left; simp [exploreStep, hh]
  | some dump =>
    cases ha : env.activity with
    | none => left; simp [exploreStep, hh, ha]
    | some a =>
      by_cases hv : dumpInvalid dump
      · left; simp [exploreStep, hh, ha, hv]
      · right
        refine ⟨dump, a, rfl, rfl, by simpa using hv, ?_⟩
        cases hc : getClickableElements (parseUIHierarchy dump).1 with
        | nil => left; simp [exploreStep, hh, ha, hv, hc]
        | cons c cs =>
          right
          exact ⟨(c :: cs).getD (env.choose % (c :: cs).length) c,
            by simp [exploreStep, hh, ha, hv, hc]⟩

/-! ## Claim C1: no duplicate screens -/

/-- Run invariant backing C1: the visited-fingerprint list is duplicate-free
(it models a Python `set`), one screen exists per visited fingerprint, and
the i-th screen carries the id minted from its creation index. -/
def ScreenInv (st : ExplorerState) : Prop :=
  st.visited_states.Nodup ∧
  st.screens.length = st.visited_states.length ∧
  st.screens.map ScreenModel.screen_id =
    (List.range st.screens.length).map (fun i => "screen_" ++ toString i)

theorem registerScreen_screenInv (st : ExplorerState) (a : String) (es : List UIElement)
    (fp : Fingerprint) (h : ScreenInv st) : ScreenInv (registerScreen st a es fp) := by
  by_cases hm : fp ∈ st.visited_states
  · rwa [registerScreen_mem hm]
  · obtain ⟨h1, h2, h3⟩ := h
    rw [registerScreen_new hm]
    refine ⟨?_, ?_, ?_⟩
    · simp only [List.nodup_append, List.nodup_cons, List.not_mem_nil, not_false_iff,
        List.nodup_nil, and_true, List.disjoint_singleton]
      exact ⟨h1, by simpa using hm⟩
    · simp only [List.length_append, List.length_cons, List.length_nil]
      omega
    · simp only [List.map_append, List.map_cons, List.map_nil, List.length_append,
        List.length_cons, List.length_nil]
      rw [h3]
      have : st.screens.length + (0 + 1) = st.screens.length + 1 := by omega
      rw [this, List.range_succ, List.map_append, List.map_cons, List.map_nil]
      rfl

theorem recordAction_screenInv (st : ExplorerState) (tgt : UIElement)
    (h : ScreenInv st) : ScreenInv (recordAction st tgt) := by
  simpa [ScreenInv, recordAction] using h

theorem exploreStep_screenInv (st : ExplorerState) (env : StepEnv)
    (h : ScreenInv st) : ScreenInv (exploreStep st env).1 := by
  rcases exploreStep_shape st env with heq | ⟨dump, a, -, -, -, heq | ⟨tgt, heq⟩⟩
  · rwa [heq]
  · rw [heq]; exact registerScreen_screenInv _ _ _ _ h
  · rw [heq]; exact recordAction_screenInv _ _ (registerScreen_screenInv _ _ _ _ h)

theorem exploreRun_screenInv (envs : List StepEnv) (st : ExplorerState)
    (h : ScreenInv st) : ScreenInv (exploreRun st envs).1 := by
  induction envs generalizing st with
  | nil => exact h
  | cons e rest ih =>
    rcases hstep : exploreStep st e with ⟨st2, flag⟩
    have h2 : ScreenInv st2 := by
      have := exploreStep_screenInv st e h
      rwa [hstep] at this
    cases flag with
    | false => simp only [exploreRun, hstep]; exact h2
    | true => simp only [exploreRun, hstep]; exact ih st2 h2

/-- C1: across any full exploration run, exactly one `ScreenModel` is
created per distinct fingerprint observed (the screen count equals the size
of the duplicate-free visited-fingerprint set, so two screens are never
created for fingerprints that compare equal), and every screen receives a
fresh, never-reused id minted from its first-sight index. -/
theorem no_duplicate_screens (envs : List StepEnv) :
    (exploreRun {} envs).1.screens.length = (exploreRun {} envs).1.visited_states.length ∧
    (exploreRun {} envs).1.visited_states.Nodup ∧
    ((exploreRun {} envs).1.screens.map ScreenModel.screen_id).Nodup := by
  have h := exploreRun_screenInv envs {} ⟨List.nodup_nil, rfl, rfl⟩
  obtain ⟨h1, h2, h3⟩ := h
  refine ⟨h2, h1, ?_⟩
  rw [h3]
  exact List.Nodup.map screen_id_of_index_inj (List.nodup_range _)

/-! ## Claim C4: transition referential integrity -/

/-- Run invariant backing C4: transition endpoints and the current screen
pointer always name screens present in the run's screen list. -/
def RefInv (st : ExplorerState) : Prop :=
  (∀ t ∈ st.transitions,
      t.from_screen_id ∈ st.screens.map ScreenModel.screen_id ∧
      t.to_screen_id ∈ st.screens.map ScreenModel.screen_id) ∧
  (∀ c, st.current_screen_id = some c → c ∈ st.screens.map ScreenModel.screen_id)

theorem registerScreen_refInv (st : ExplorerState) (a : String) (es : List UIElement)
    (fp : Fingerprint) (h : RefInv st) : RefInv (registerScreen st a es fp) := by
  by_cases hm : fp ∈ st.visited_states
  · rwa [registerScreen_mem hm]
  · obtain ⟨ht, hc⟩ := h
    rw [registerScreen_new hm]
    constructor
    · intro t htmem
      simp only at htmem
      have hmemold : ∀ t ∈ st.transitions,
          t.from_screen_id ∈ (st.screens ++ [newScreen st a es]).map ScreenModel.screen_id ∧
          t.to_screen_id ∈ (st.screens ++ [newScreen st a es]).map ScreenModel.screen_id := by
        intro t' ht'
        obtain ⟨hf, hto⟩ := ht t' ht'
        simp only [List.map_append, List.mem_append]
        exact ⟨Or.inl hf, Or.inl hto⟩
      unfold newTransitions at htmem
      rcases hcur : st.current_screen_id with _ | cur <;>
        rcases hla : st.actions.getLast? with _ | la <;>
          simp only [hcur, hla] at htmem
      · exact hmemold t htmem
      · exact hmemold t htmem
      · exact hmemold t htmem
      · by_cases hemp : cur = ""
        · rw [if_pos hemp] at htmem
          exact hmemold t htmem
        · rw [if_neg hemp] at htmem
          rcases List.mem_append.mp htmem with hold | hnew
          · exact hmemold t hold
          · have : t = { transition_id := "trans_" ++ toString st.transitions.length
                         from_screen_id := cur
                         to_screen_id := (newScreen st a es).screen_id
                         triggered_by_action := la } := by simpa using hnew
            subst this
            constructor
            · simp only [List.map_append, List.mem_append]
              exact Or.inl (hc cur hcur)
            · simp
    · intro c hcc
      simp only at hcc
      have : c = (newScreen st a es).screen_id := by
        have := hcc
        simp only [Option.some.injEq] at this
        exact this.symm
      subst this
      simp

theorem recordAction_refInv (st : ExplorerState) (tgt : UIElement)
    (h : RefInv st) : RefInv (recordAction st tgt) := by
  simpa [RefInv, recordAction] using h

theorem exploreStep_refInv (st : ExplorerState) (env : StepEnv)
    (h : RefInv st) : RefInv (exploreStep st env).1 := by
  rcases exploreStep_shape st env with heq | ⟨dump, a, -, -, -, heq | ⟨tgt, heq⟩⟩
  · rwa [heq]
  · rw [heq]; exact registerScreen_refInv _ _ _ _ h
  · rw [heq]; exact recordAction_refInv _ _ (registerScreen_refInv _ _ _ _ h)

theorem exploreRun_refInv (envs : List StepEnv) (st : ExplorerState)
    (h : RefInv st) : RefInv (exploreRun st envs).1 := by
  induction envs generalizing st with
  | nil => exact h
  | cons e rest ih =>
    rcases hstep : exploreStep st e with ⟨st2, flag⟩
    have h2 : RefInv st2 := by
      have := exploreStep_refInv st e h
      rwa [hstep] at this
    cases flag with
    | false => simp only [exploreRun, hstep]; exact h2
    | true => simp only [exploreRun, hstep]; exact ih st2 h2

theorem mockTransitions_endpoints {screens : List ScreenModel} {t : StateTransition}
    (ht : t ∈ mockTransitions screens) :
    t.from_screen_id ∈ screens.map ScreenModel.screen_id ∧
    t.to_screen_id ∈ screens.map ScreenModel.screen_id := by
  unfold mockTransitions at ht
  simp only [List.mem_map, List.mem_range] at ht
  obtain ⟨i, hi, rfl⟩ := ht
  have hi1 : i < screens.length := by omega
  have hi2 : i + 1 < screens.length := by omega
  constructor
  · refine List.mem_map.mpr ⟨screens.getD i default, ?_, rfl⟩
    rw [List.getD_eq_getElem _ _ hi1]
    exact List.getElem_mem hi1
  · refine List.mem_map.mpr ⟨screens.getD (i + 1) default, ?_, rfl⟩
    rw [List.getD_eq_getElem _ _ hi2]
    exact List.getElem_mem hi2

/-- C4: in every exploration run — and likewise in the degraded/mock
result — each recorded transition's `from_screen_id` and `to_screen_id`
name screens present in that same run's screen list. -/
theorem transition_referential_integrity (envs : List StepEnv) (input : DynamicAnalysisInput) :
    (∀ t ∈ (exploreRun {} envs).1.transitions,
        t.from_screen_id ∈ (exploreRun {} envs).1.screens.map ScreenModel.screen_id ∧
        t.to_screen_id ∈ (exploreRun {} envs).1.screens.map ScreenModel.screen_id) ∧
    (∀ t ∈ (mockOutput input).transitions,
        t.from_screen_id ∈ (mockOutput input).screens.map ScreenModel.screen_id ∧
        t.to_screen_id ∈ (mockOutput input).screens.map ScreenModel.screen_id) := by
  constructor
  · exact (exploreRun_refInv envs {} ⟨by simp, by simp⟩).1
  · intro t ht
    exact mockTransitions_endpoints ht

/-! ## Claims C2 and C3: fingerprint stability and sensitivity -/

theorem parseUIHierarchy_ok (roots : List XMLNode) :
    parseUIHierarchy (.ok roots) =
      ((parseRoots 0 roots).1, some (pySort (((parseRoots 0 roots).2).map encodePair))) := rfl

theorem perm_of_pySort_eq {l1 l2 : List String} (h : pySort l1 = pySort l2) : l1.Perm l2 := by
  have h2 := pySort_perm l2
  rw [← h] at h2
  exact (pySort_perm l1).symm.trans h2

/-- C2: fingerprint stability — two snapshots whose parses yield the same
multiset of (element id, text-prefix) pairs, in whatever traversal order,
receive equal fingerprints, because the encoded pairs are sorted before
hashing. -/
theorem fingerprint_stability (r1 r2 : List XMLNode)
    (h : ((parseRoots 0 r1).2).Perm ((parseRoots 0 r2).2)) :
    (parseUIHierarchy (.ok r1)).2 = (parseUIHierarchy (.ok r2)).2 := by
  rw [parseUIHierarchy_ok, parseUIHierarchy_ok]
  exact congrArg some (pySort_eq_of_perm (h.map encodePair))

/-- A clickable button node with a resource id and a short text. -/
def nodeTA : XMLNode :=
  .mk (some (0, 0, 540, 960)) (some "idA") (some "ta") none
    (some "android.widget.Button") (some "true") none none (some "true") []

/-- A second clickable button node with a different resource id and text. -/
def nodeTB : XMLNode :=
  .mk (some (540, 0, 1080, 960)) (some "idB") (some "tb") none
    (some "android.widget.Button") (some "true") none none (some "true") []

/-- Witness for C2 at a concrete input: the same two nodes in the two
possible traversal orders produce permuted pair lists and equal
fingerprints. -/
theorem fingerprint_stability_witness :
    ((parseRoots 0 [nodeTA, nodeTB]).2).Perm ((parseRoots 0 [nodeTB, nodeTA]).2) ∧
    (parseUIHierarchy (.ok [nodeTA, nodeTB])).2 = (parseUIHierarchy (.ok [nodeTB, nodeTA])).2 :=
  ⟨by decide, fingerprint_stability _ _ (by decide)⟩

/-- A clickable node whose text is 21 characters long (20 `a`s then `x`). -/
def nodeLongX : XMLNode :=
  .mk (some (0, 0, 540, 960)) (some "btn") (some "aaaaaaaaaaaaaaaaaaaax") none
    (some "android.widget.Button") (some "true") none none (some "true") []

/-- The same node with the 21st character changed (20 `a`s then `y`). -/
def nodeLongY : XMLNode :=
  .mk (some (0, 0, 540, 960)) (some "btn") (some "aaaaaaaaaaaaaaaaaaaay") none
    (some "android.widget.Button") (some "true") none none (some "true") []

/-- C3 counterexample: changing an element's text does **not** always change
the fingerprint — only the first 20 characters of the text participate
(`text[:20]`), so two snapshots that differ in a clickable element's 21st
text character parse to different element texts yet hash to equal
fingerprints. -/
theorem fingerprint_sensitivity_cex :
    (parseUIHierarchy (.ok [nodeLongX])).1.map UIElement.text ≠
      (parseUIHierarchy (.ok [nodeLongY])).1.map UIElement.text ∧
    (parseUIHierarchy (.ok [nodeLongX])).2 = (parseUIHierarchy (.ok [nodeLongY])).2 :=
  ⟨by decide, by decide⟩

/-- C3 amended: fingerprint sensitivity restricted to the fingerprinted
data — replacing the text *prefix* (the first 20 characters, i.e. what
`text[:20]` contributes) of any element with a different prefix changes the
fingerprint, and adding (or, symmetrically, removing) any element changes
the fingerprint. -/
theorem fingerprint_sensitivity_amended :
    (∀ (r1 r2 : List XMLNode) (A B : List (String × String)) (i t t' : String),
        (parseRoots 0 r1).2 = A ++ (i, t) :: B →
        (parseRoots 0 r2).2 = A ++ (i, t') :: B →
        t ≠ t' →
        (parseUIHierarchy (.ok r1)).2 ≠ (parseUIHierarchy (.ok r2)).2) ∧
    (∀ (r1 r2 : List XMLNode) (A B : List (String × String)) (p : String × String),
        (parseRoots 0 r1).2 = A ++ B →
        (parseRoots 0 r2).2 = A ++ p :: B →
        (parseUIHierarchy (.ok r1)).2 ≠ (parseUIHierarchy (.ok r2)).2) := by
  constructor
  · intro r1 r2 A B i t t' h1 h2 ht hfp
    rw [parseUIHierarchy_ok, parseUIHierarchy_ok] at hfp
    simp only [Option.some.injEq] at hfp
    have hperm := perm_of_pySort_eq hfp
    rw [h1, h2] at hperm
    simp only [List.map_append, List.map_cons] at hperm
    have hcount := hperm.count_eq (encodePair (i, t))
    have hne : encodePair (i, t) ≠ encodePair (i, t') := by
      intro heq
      exact ht (encodePair_inj_right heq)
    rw [List.count_append, List.count_append, List.count_cons_self,
      List.count_cons_of_ne hne] at hcount
    omega
  · intro r1 r2 A B p h1 h2 hfp
    rw [parseUIHierarchy_ok, parseUIHierarchy_ok] at hfp
    simp only [Option.some.injEq] at hfp
    have hlen := congrArg List.length hfp
    rw [(pySort_perm _).length_eq, (pySort_perm _).length_eq] at hlen
    simp only [List.length_map, h1, h2, List.length_append, List.length_cons] at hlen
    omega

/-- A clickable node with resource id `w` and one-character text `x`. -/
def nodeWX : XMLNode :=
  .mk (some (0, 0, 540, 960)) (some "w") (some "x") none
    (some "android.widget.Button") (some "true") none none (some "true") []

/-- The same node with text `y`. -/
def nodeWY : XMLNode :=
  .mk (some (0, 0, 540, 960)) (some "w") (some "y") none
    (some "android.widget.Button") (some "true") none none (some "true") []

/-- Witness for the amended C3 at concrete inputs: a one-character prefix
change alters the fingerprint, and inserting an extra clickable node alters
the fingerprint. -/
theorem fingerprint_sensitivity_amended_witness :
    (parseUIHierarchy (.ok [nodeWX])).2 ≠ (parseUIHierarchy (.ok [nodeWY])).2 ∧
    (parseUIHierarchy (.ok [nodeTA])).2 ≠ (parseUIHierarchy (.ok [nodeTB, nodeTA])).2 :=
  ⟨fingerprint_sensitivity_amended.1 [nodeWX] [nodeWY] [] [] "w" "x" "y"
      (by decide) (by decide) (by decide),
    fingerprint_sensitivity_amended.2 [nodeTA] [nodeTB, nodeTA] [] [("idA", "ta")] ("idB", "tb")
      (by decide) (by decide)⟩

/-! ## Concrete channel behaviours used by witnesses and counterexamples -/

/-- Snapshot containing only `nodeTA`. -/
def dumpTA : UIDump := .ok [nodeTA]

/-- Snapshot containing only `nodeTB`. -/
def dumpTB : UIDump := .ok [nodeTB]

/-- A fully successful step observing `dumpTA`. -/
def envTA : StepEnv := { hierarchy := some dumpTA, activity := some "com.app/.MainActivity" }

/-- A fully successful step observing `dumpTB`. -/
def envTB : StepEnv := { hierarchy := some dumpTB, activity := some "com.app/.DetailActivity" }

/-- A two-activity analysis input. -/
def inputTwo : DynamicAnalysisInput :=
  { activities := [{ name := "com.x.Main", is_launcher := true }, { name := "com.x.Detail" }] }

instance : Inhabited UserAction :=
  ⟨{ action_id := "", action_type := .tap, source_screen_id := "" }⟩

instance : Inhabited StateTransition :=
  ⟨{ transition_id := "", from_screen_id := "", to_screen_id := "",
     triggered_by_action := default }⟩

/-- Witness for C4 at concrete inputs: the first transition of a concrete
live run and of a concrete mock result have endpoints inside the respective
screen lists. -/
theorem transition_referential_integrity_witness :
    ((exploreRun {} [envTA, envTB]).1.transitions.getD 0 default).from_screen_id ∈
        (exploreRun {} [envTA, envTB]).1.screens.map ScreenModel.screen_id ∧
    ((exploreRun {} [envTA, envTB]).1.transitions.getD 0 default).to_screen_id ∈
        (exploreRun {} [envTA, envTB]).1.screens.map ScreenModel.screen_id ∧
    ((mockOutput inputTwo).transitions.getD 0 default).from_screen_id ∈
        (mockOutput inputTwo).screens.map ScreenModel.screen_id := by
  have h1 : 0 < (exploreRun {} [envTA, envTB]).1.transitions.length := by decide
  have h2 : 0 < (mockOutput inputTwo).transitions.length := by decide
  have hm1 : (exploreRun {} [envTA, envTB]).1.transitions.getD 0 default ∈
      (exploreRun {} [envTA, envTB]).1.transitions := by
    rw [List.getD_eq_getElem _ _ h1]
    exact List.getElem_mem h1
  have hm2 : (mockOutput inputTwo).transitions.getD 0 default ∈
      (mockOutput inputTwo).transitions := by
    rw [List.getD_eq_getElem _ _ h2]
    exact List.getElem_mem h2
  exact ⟨((transition_referential_integrity [envTA, envTB] inputTwo).1 _ hm1).1,
    ((transition_referential_integrity [envTA, envTB] inputTwo).1 _ hm1).2,
    ((transition_referential_integrity [envTA, envTB] inputTwo).2 _ hm2).1⟩

/-! ## Claim C5: current-screen update on every step -/

/-- C5 counterexample: on a revisit the engine does **not** move the
current-screen pointer to the screen matching the observed fingerprint.
After the concrete run [A, B, A], step 3's fingerprint is that of `dumpTA`,
which was registered first (it sits at index 0 of the visited list, paired
with `screen_0`), yet `current_screen_id` still points at `screen_1`. -/
theorem current_screen_cex :
    (parseUIHierarchy dumpTA).2 ∈ (exploreRun {} [envTA, envTB]).1.visited_states ∧
    (exploreRun {} [envTA, envTB, envTA]).1.visited_states[0]? =
      some ((parseUIHierarchy dumpTA).2) ∧
    ((exploreRun {} [envTA, envTB, envTA]).1.screens.map ScreenModel.screen_id)[0]? =
      some "screen_0" ∧
    (exploreRun {} [envTA, envTB, envTA]).1.current_screen_id = some "screen_1" ∧
    ("screen_1" : String) ≠ "screen_0" := by
  refine ⟨by decide, by decide, by decide, by decide, by decide⟩

/-- C5 amended: the current screen is moved only when the step's
fingerprint is new (it then points at the freshly registered screen); on a
revisit of an already-registered fingerprint the pointer keeps its previous
value, so the next transition's from-screen can be stale. -/
theorem current_screen_amended (st : ExplorerState) (env : StepEnv) (dump : UIDump)
    (a : String) (hh : env.hierarchy = some dump) (ha : env.activity = some a)
    (hv : dumpInvalid dump = false) :
    (exploreStep st env).1.current_screen_id =
      if (parseUIHierarchy dump).2 ∈ st.visited_states then st.current_screen_id
      else some ("screen_" ++ toString st.screens.length) := by
  by_cases hm : (parseUIHierarchy dump).2 ∈ st.visited_states
  · rw [if_pos hm]
    cases hc : getClickableElements (parseUIHierarchy dump).1 with
    | nil => simp [exploreStep, hh, ha, hv, hc, registerScreen_mem hm]
    | cons c cs => simp [exploreStep, hh, ha, hv, hc, recordAction, registerScreen_mem hm]
  · rw [if_neg hm]
    cases hc : getClickableElements (parseUIHierarchy dump).1 with
    | nil => simp [exploreStep, hh, ha, hv, hc, registerScreen_new hm, newScreen]
    | cons c cs =>
      simp [exploreStep, hh, ha, hv, hc, recordAction, registerScreen_new hm, newScreen]

/-- Witness for the amended C5 at a concrete input: a first step from the
empty state registers and selects `screen_0`. -/
theorem current_screen_amended_witness :
    (exploreStep {} envTA).1.current_screen_id =
      if (parseUIHierarchy dumpTA).2 ∈ ({} : ExplorerState).visited_states
      then ({} : ExplorerState).current_screen_id
      else some ("screen_" ++ toString ({} : ExplorerState).screens.length) :=
  current_screen_amended {} envTA dumpTA "com.app/.MainActivity" rfl rfl (by decide)

/-! ## Claim C6: graceful degradation on boot failure -/

/-- Modelled from the spec: the degraded-mode coverage "computed from the
static entry-point count" — sections 4.2 and 8 define the coverage estimate
as the ratio of the discovered-screen count to the statically known
entry-point count, clamped to 1.0; in degraded mode the discovered screens
are the one-per-activity synthesized screens. -/
def specDegradedCoverage (input : DynamicAnalysisInput) : Rat :=
  min (((mockScreens input.activities).length : Rat) / (max input.activities.length 1 : Nat)) 1

theorem mockScreens_length (acts : List ActivityInfo) :
    (mockScreens acts).length = acts.length := by
  simp [mockScreens]

theorem mockScreens_getD_id {acts : List ActivityInfo} {i : Nat} (h : i < acts.length) :
    ((mockScreens acts).getD i default).screen_id = "screen_" ++ toString i := by
  have hlen : i < (mockScreens acts).length := by rwa [mockScreens_length]
  rw [List.getD_eq_getElem _ _ hlen]
  simp [mockScreens]

/-- C6 counterexample: the degraded result's coverage is **not** computed
from the static entry-point count — `_mock_analysis` hard-codes `0.3`,
while a coverage computed as the (clamped) ratio of the one-per-activity
synthesized screens to the entry-point count would be `1` for this concrete
two-activity input. -/
theorem graceful_degradation_cex :
    (analyze inputTwo false (fun _ => {})).data.map DynamicAnalysisOutput.exploration_coverage =
      some (3 / 10) ∧
    specDegradedCoverage inputTwo = 1 ∧
    ((3 : Rat) / 10) ≠ 1 := by
  refine ⟨rfl, ?_, by norm_num⟩
  have h2 : (mockScreens inputTwo.activities).length = 2 := by decide
  have h3 : inputTwo.activities.length = 2 := by decide
  rw [specDegradedCoverage, h2, h3]
  norm_num

/-- C6 amended: if the channel fails to reach Ready, `analyze` returns the
mock result without raising (the model of `analyze` is a total function
whose boot-failure branch is `_mock_analysis`): the result is flagged
(success with a non-empty warning list), its screens are synthesized one
per statically declared activity, its transitions are linear between
consecutive synthesized screens, and its coverage estimate is the fixed
constant `0.3` (not a value computed from the entry-point count). -/
theorem graceful_degradation_amended (input : DynamicAnalysisInput) (envs : Nat → StepEnv) :
    analyze input false envs = mockAnalysis input ∧
    (analyze input false envs).success = true ∧
    (analyze input false envs).warnings ≠ [] ∧
    (analyze input false envs).data = some (mockOutput input) ∧
    (mockOutput input).screens.length = input.activities.length ∧
    (mockOutput input).screens.map ScreenModel.activity_name =
      input.activities.map (fun a => some a.name) ∧
    (mockOutput input).transitions.length = (mockOutput input).screens.length - 1 ∧
    (∀ i t, (mockOutput input).transitions[i]? = some t →
        t.from_screen_id = "screen_" ++ toString i ∧
        t.to_screen_id = "screen_" ++ toString (i + 1)) ∧
    (mockOutput input).exploration_coverage = 3 / 10 := by
  refine ⟨rfl, rfl, by simp [analyze, mockAnalysis, ServiceRes.with_warnings], rfl,
    mockScreens_length _, ?_, ?_, ?_, rfl⟩
  · rw [show (mockOutput input).screens = mockScreens input.activities from rfl]
    unfold mockScreens
    rw [List.map_map]
    conv_rhs => rw [← List.enum_map_snd input.activities, List.map_map]
    rfl
  · simp [mockOutput, mockTransitions, mockScreens_length]
  · intro i t ht
    have htr : (mockOutput input).transitions =
        mockTransitions (mockScreens input.activities) := rfl
    rw [htr] at ht
    unfold mockTransitions at ht
    rw [List.getElem?_map] at ht
    rcases hr : (List.range ((mockScreens input.activities).length - 1))[i]? with _ | j
    · rw [hr] at ht
      simp at ht
    · rw [hr] at ht
      obtain ⟨hlt, hval⟩ := List.getElem?_eq_some_iff.mp hr
      simp only [List.getElem_range] at hval
      subst hval
      rw [List.length_range] at hlt
      simp only [Option.map] at ht
      have ht2 := Option.some.inj ht
      subst ht2
      rw [mockScreens_length] at hlt
      have hi1 : i < input.activities.length := by omega
      have hi2 : i + 1 < input.activities.length := by omega
      exact ⟨mockScreens_getD_id hi1, mockScreens_getD_id hi2⟩

/-- Witness for the amended C6 at a concrete input: the degraded result for
the two-activity input is flagged and its first transition links the two
synthesized screens. -/
theorem graceful_degradation_amended_witness :
    (analyze inputTwo false (fun _ => {})).data = some (mockOutput inputTwo) ∧
    ((mockOutput inputTwo).transitions.getD 0 default).from_screen_id =
      "screen_" ++ toString 0 ∧
    ((mockOutput inputTwo).transitions.getD 0 default).to_screen_id =
      "screen_" ++ toString 1 := by
  have h := graceful_degradation_amended inputTwo (fun _ => {})
  have hlen : 0 < (mockOutput inputTwo).transitions.length := by decide
  have h0 : (mockOutput inputTwo).transitions[0]? =
      some ((mockOutput inputTwo).transitions.getD 0 default) := by
    rw [List.getD_eq_getElem _ _ hlen]
    exact List.getElem?_eq_getElem hlen
  exact ⟨h.2.2.2.1, (h.2.2.2.2.2.2.2.1 0 _ h0).1, (h.2.2.2.2.2.2.2.1 0 _ h0).2⟩

/-! ## Claim C7: step-failure recovery -/

/-- A step whose UI-tree dump command raises and whose recovery
`press_back` raises as well. -/
def envHFail : StepEnv := { hierarchy := none, backOk := false }

/-- C7 counterexample: a step failure does **not** always let the run
proceed — the recovery `press_back` issued inside the `except` handler can
itself raise, in which case the error escapes the step loop and aborts the
run (here the following, perfectly healthy step is never executed). -/
theorem step_failure_cex :
    (exploreRun {} [envHFail, envTA]).2 = false ∧
    (exploreRun {} [envHFail, envTA]).1.screens.length = 0 := by
  exact ⟨by decide, by decide⟩

theorem exploreStep_flag_of_backOk {st : ExplorerState} {env : StepEnv}
    (h : env.backOk = true) : (exploreStep st env).2 = true := by
  cases hh : env.hierarchy with
  | none => simp [exploreStep, hh, h]
  | some dump =>
    cases ha : env.activity with
    | none => simp [exploreStep, hh, ha, h]
    | some a =>
      by_cases hv : dumpInvalid dump
      · simp [exploreStep, hh, ha, hv, h]
      · cases hc : getClickableElements (parseUIHierarchy dump).1 with
        | nil => simp [exploreStep, hh, ha, hv, hc, h]
        | cons c cs => simp [exploreStep, hh, ha, hv, hc, h]

/-- C7 amended: whenever a step raises, the engine issues `press_back` and
— provided that recovery command succeeds — proceeds to the next step, so a
run in which every recovery `press_back` succeeds always completes all its
iterations and hands back a (possibly partial) state; only a failing
recovery `press_back` lets the error escape the loop. -/
theorem step_failure_recovery (st : ExplorerState) (envs : List StepEnv)
    (h : ∀ e ∈ envs, e.backOk = true) :
    (exploreRun st envs).2 = true := by
  induction envs generalizing st with
  | nil => rfl
  | cons e rest ih =>
    rcases hstep : exploreStep st e with ⟨st2, flag⟩
    have hfl : flag = true := by
      have := @exploreStep_flag_of_backOk st e (h e (by simp))
      rwa [hstep] at this
    subst hfl
    simp only [exploreRun, hstep]
    exact ih st2 (fun e' he' => h e' (by simp [he']))

/-- A failing step whose recovery `press_back` succeeds. -/
def envHFailRec : StepEnv := { hierarchy := none }

/-- Witness for the amended C7 at a concrete input: a run whose only step
fails but recovers completes. -/
theorem step_failure_recovery_witness : (exploreRun {} [envHFailRec]).2 = true :=
  step_failure_recovery {} [envHFailRec] (by decide)

/-! ## Claim C8: step-budget termination -/

theorem registerScreen_action_count (st : ExplorerState) (a : String)
    (es : List UIElement) (fp : Fingerprint) :
    (registerScreen st a es fp).action_count = st.action_count := by
  by_cases hm : fp ∈ st.visited_states
  · rw [registerScreen_mem hm]
  · rw [registerScreen_new hm]

theorem registerScreen_actions (st : ExplorerState) (a : String)
    (es : List UIElement) (fp : Fingerprint) :
    (registerScreen st a es fp).actions = st.actions := by
  by_cases hm : fp ∈ st.visited_states
  · rw [registerScreen_mem hm]
  · rw [registerScreen_new hm]

theorem exploreStep_action_count (st : ExplorerState) (env : StepEnv) :
    (exploreStep st env).1.action_count ≤ st.action_count + 1 := by
  rcases exploreStep_shape st env with heq | ⟨dump, a, -, -, -, heq | ⟨tgt, heq⟩⟩
  · rw [heq]; omega
  · rw [heq, registerScreen_action_count]; omega
  · rw [heq]
    have : (recordAction (registerScreen st a (parseUIHierarchy dump).1
        (parseUIHierarchy dump).2) tgt).action_count =
        (registerScreen st a (parseUIHierarchy dump).1
          (parseUIHierarchy dump).2).action_count + 1 := by
      simp [recordAction]
    rw [this, registerScreen_action_count]

theorem exploreRun_action_count (envs : List StepEnv) (st : ExplorerState) :
    (exploreRun st envs).1.action_count ≤ st.action_count + envs.length := by
  induction envs generalizing st with
  | nil => simp [exploreRun]
  | cons e rest ih =>
    rcases hstep : exploreStep st e with ⟨st2, flag⟩
    have hle : st2.action_count ≤ st.action_count + 1 := by
      have := exploreStep_action_count st e
      rwa [hstep] at this
    cases flag with
    | false =>
      simp only [exploreRun, hstep, List.length_cons]
      omega
    | true =>
      simp only [exploreRun, hstep, List.length_cons]
      have := ih st2
      omega

/-- C8: the exploration loop runs at most `max_actions` iterations where
`max_actions = exploration_time_seconds // 5`, so a run records at most
that many action-selection steps (and, the loop being a fold over a finite
range, it terminates). -/
theorem step_budget_termination (envs : Nat → StepEnv) (t : Nat) :
    (explore envs (maxActionsFor t)).1.action_count ≤ maxActionsFor t ∧
    maxActionsFor t = t / 5 := by
  constructor
  · have h := exploreRun_action_count ((List.range (maxActionsFor t)).map envs) {}
    simpa [explore] using h
  · rfl

/-! ## Claim C9: recorded tap coordinates -/

/-- A clickable node with pixel bounds [648,960][864,1344], i.e. normalized
bounds left 0.6, top 0.5, right 0.8, bottom 0.7. -/
def nodeC9 : XMLNode :=
  .mk (some (648, 960, 864, 1344)) (some "btn") (some "Go") none
    (some "android.widget.Button") (some "true") none none (some "true") []

/-- A fully successful step observing only `nodeC9`. -/
def envC9 : StepEnv := { hierarchy := some (.ok [nodeC9]), activity := some "com.app/.Main" }

/-- C9, evaluated at the failing input: the `UserAction` recorded for the
tap carries `coordinates = (bounds_left + bounds_right, bounds_top +
bounds_bottom)` — the *sum* of the normalized bounds, here `(7/5, 6/5)`,
which exceeds 1 — instead of the midpoint `((l+r)/2, (t+b)/2)` (here
`(7/10, 3/5)`, which would lie in `[0,1]` as the field's own documentation
"Normalized tap coordinates" and the tap's pixel computation `int((l+r)/2 *
width)` require). -/
theorem tap_coordinates_not_normalized :
    (exploreStep {} envC9).1.actions.map UserAction.coordinates = [some (7 / 5, 6 / 5)] ∧
    ¬ ((7 : Rat) / 5 ≤ 1) ∧ ((7 : Rat) / 5) / 2 ≤ 1 ∧ ((6 : Rat) / 5) / 2 ≤ 1 := by
  refine ⟨?_, by norm_num, by norm_num, by norm_num⟩
  have h : (exploreStep {} envC9).1.actions.map UserAction.coordinates =
      [some (((648 : Nat) : Rat) / 1080 + ((864 : Nat) : Rat) / 1080,
             ((960 : Nat) : Rat) / 1920 + ((1344 : Nat) : Rat) / 1920)] := rfl
  rw [h]
  simp only [List.cons.injEq, Option.some.injEq, Prod.mk.injEq, and_true]
  constructor <;> norm_num

/-! ## Claim C10: malformed dumps create a phantom screen -/

/-- C10: a malformed UI-tree document parses to zero elements with the
empty-string fingerprint; the first such step of a run registers a phantom
screen with no root elements and no interactive elements (recording a
transition into it when a current screen and a previous action exist),
every later malformed dump is a revisit that changes nothing, and in either
case the step records no action and falls through to the fallback-scroll
branch. -/
theorem malformed_dump_phantom_screen (st : ExplorerState) (env : StepEnv) (a : String)
    (hh : env.hierarchy = some UIDump.malformed) (ha : env.activity = some a) :
    parseUIHierarchy UIDump.malformed = (([] : List UIElement), (none : Fingerprint)) ∧
    ((none : Fingerprint) ∉ st.visited_states →
      (exploreStep st env).1.screens = st.screens ++ [newScreen st a []] ∧
      (newScreen st a []).root_elements = [] ∧
      (newScreen st a []).interactive_elements = [] ∧
      (exploreStep st env).1.current_screen_id = some (newScreen st a []).screen_id ∧
      (exploreStep st env).1.transitions = newTransitions st (newScreen st a []).screen_id ∧
      (∀ cur la, st.current_screen_id = some cur → cur ≠ "" →
        st.actions.getLast? = some la →
        newTransitions st (newScreen st a []).screen_id =
          st.transitions ++
            [{ transition_id := "trans_" ++ toString st.transitions.length
               from_screen_id := cur
               to_screen_id := (newScreen st a []).screen_id
               triggered_by_action := la }])) ∧
    ((none : Fingerprint) ∈ st.visited_states → (exploreStep st env).1 = st) ∧
    (exploreStep st env).1.actions = st.actions ∧
    (exploreStep st env).1.action_count = st.action_count ∧
    (exploreStep st env).2 = (env.swipeOk || env.backOk) := by
  have hstep : exploreStep st env =
      (registerScreen st a [] none, env.swipeOk || env.backOk) := by
    simp [exploreStep, hh, ha, parseUIHierarchy, dumpInvalid, getClickableElements,
      collectClickableList]
  refine ⟨rfl, ?_, ?_, ?_, ?_, ?_⟩
  · intro hnot
    rw [hstep]
    rw [registerScreen_new hnot]
    refine ⟨rfl, rfl, rfl, rfl, rfl, ?_⟩
    intro cur la hcur hne hla
    unfold newTransitions
    rw [hcur, hla]
    simp [hne]
  · intro hmem
    rw [hstep]
    exact registerScreen_mem hmem
  · rw [hstep, registerScreen_actions]
  · rw [hstep, registerScreen_action_count]
  · rw [hstep]

/-- A step that receives a malformed UI-tree document. -/
def envMal : StepEnv := { hierarchy := some .malformed, activity := some "pkg/Act" }

/-- Witness for C10 at a concrete input: from the empty state, one
malformed-dump step registers exactly the phantom screen, records no
action, and falls through to the (successful) fallback scroll. -/
theorem malformed_dump_phantom_screen_witness :
    (exploreStep {} envMal).1.screens = [newScreen {} "pkg/Act" []] ∧
    (exploreStep {} envMal).1.actions = [] ∧
    (exploreStep {} envMal).2 = true := by
  have h := malformed_dump_phantom_screen {} envMal "pkg/Act" rfl rfl
  exact ⟨(h.2.1 (by simp)).1, h.2.2.2.1, h.2.2.2.2.2⟩

end APKalypse
